import Mathlib

/-!
Verification of the configuration-resolution core of a Python CLI template
(src/fixme/cli.py and src/fixme/__main__.py): a chain-of-responsibility of
configuration sources (Handler subclasses), plus a duration-string parser.

Modelling conventions:
* Python values that flow through the chain are modelled by the inductive
  type Value; the Python value None is Value.none.  The absent-answer
  signal produced by Handler.get_from_next_handler when there is no
  successor is the Python value None, i.e. Value.none here.
* A chain of handlers (each node holding an optional reference to its
  successor) is modelled as the list of its nodes, head first.
* The filesystem is an association list from path to file contents; the
  process environment is an association list from variable name to value.
* Calls into the external libraries json.loads and yaml.safe_load are
  modelled by function parameters (jloads, yloads) returning either a
  parsed value or an error, since their code is not part of this
  repository.  A raised Python exception is modelled as Except.error.
* Evaluation is instrumented with a log of events: entering
  handle_request on the node at a given chain position, invoking a mount
  hook at a given position, and executing the no-successor fallback of
  get_from_next_handler.  The log is pure instrumentation; it records
  which lines of the source run, and is appended to, never read.
-/

/-- Python values as they occur in this program: None, strings, integers,
booleans and string-keyed dictionaries. -/
inductive Value where
  | none : Value
  | str : String → Value
  | int : Int → Value
  | bool : Bool → Value
  | dict : List (String × Value) → Value

/-- Python exceptions raised by the modelled code. -/
inductive Err where
  | jsonErr : String → Err
  | yamlErr : String → Err
  | typeErr : String → Err
  | valueErr : String → Err
  | fileNotFound : String → Err
  deriving DecidableEq

/-- The filesystem: association list from path to the contents of the
file at that path.  A path not in the list does not exist. -/
def FS : Type := List (String × String)

/-- Python truthiness (bool(v)) for the values of this program. -/
def truthy : Value → Bool
  | Value.none => false
  | Value.str s => s != ""
  | Value.int n => n != 0
  | Value.bool b => b
  | Value.dict d => !d.isEmpty

/-- Python membership test (key in v) for a string key, as used on the
result of json.loads: dictionaries test key membership, strings test
substring containment, other values raise TypeError. -/
def py_contains (v : Value) (key : String) : Except Err Bool :=
  match v with
  | Value.dict entries => Except.ok (List.lookup key entries).isSome
  | Value.str s =>
      Except.ok (if key = "" then true else decide (2 ≤ (s.splitOn key).length))
  | _ => Except.error (Err.typeErr "argument is not iterable")

/-- Python subscription (v[key]) with a string key, as used on the result
of json.loads after a successful membership test: dictionary lookup, or
TypeError for a string (string indices must be integers). -/
def py_getitem (v : Value) (key : String) : Except Err Value :=
  match v with
  | Value.dict entries =>
      match List.lookup key entries with
      | some x => Except.ok x
      | Option.none => Except.error (Err.typeErr "key error")
  | _ => Except.error (Err.typeErr "string indices must be integers")

/-- json.loads applied to an arbitrary Python value: it only accepts
strings (otherwise TypeError); on a string it defers to the supplied
JSON decoder. -/
def json_loads_value (jloads : String → Except Err Value) : Value → Except Err Value
  | Value.str s => jloads s
  | _ => Except.error (Err.typeErr "the JSON object must be str")

/-- One node of a handler chain; one constructor per Handler subclass in
src/fixme/cli.py.  The next_handler reference is not stored here: a chain
is the list of its nodes, head first, so a node's successors are the tail
of the list.  A mount hook is modelled as a filesystem transformer. -/
inductive Node where
  | DefaultHandler : Value → Node
  | ArgHandler : List (String × Value) → Node
  | EnvHandler : Node
  | DictHandler : List (String × Value) → Node
  | FileHandler : String → Option (FS → FS) → Node
  | JSONFileHandler : String → Option (FS → FS) → Node

/-- Instrumentation events recorded during a resolution traversal:
visit d marks entry into handle_request on the node at position d of the
chain; hookCall d marks an invocation of the mount hook of the node at
position d; noNext marks the no-successor fallback of
get_from_next_handler (the line returning None when next_handler is
None). -/
inductive Ev where
  | visit : Nat → Ev
  | hookCall : Nat → Ev
  | noNext : Ev
  deriving DecidableEq

/-- Result of a resolution traversal: the returned value or raised
exception, the final filesystem, and the log of events. -/
structure Outcome where
  result : Except Err Value
  fs : FS
  log : List Ev

/-- The mount-hook step at the top of FileHandler.handle_request: if a
hook is configured and the file does not exist, invoke the hook (which
may change the filesystem) and record the invocation.  Returns the
filesystem afterwards and the events generated. -/
def mount_step (path : String) (hook : Option (FS → FS)) (d : Nat) (fs : FS) :
    FS × List Ev :=
  match hook with
  | some f =>
      if (List.lookup path fs).isSome then (fs, [])
      else (f fs, [Ev.hookCall d])
  | Option.none => (fs, [])

/-- handle_request on the chain starting at position d.  The empty-chain
case is the no-successor branch of Handler.get_from_next_handler, which
returns None.  Each non-empty case is the handle_request method of the
corresponding Handler subclass in src/fixme/cli.py; delegation to
get_from_next_handler is the recursive call on the tail. -/
def resolve (envv : List (String × String)) (jloads : String → Except Err Value) :
    List Node → String → Nat → FS → Outcome
  | [], _, _, fs => ⟨Except.ok Value.none, fs, [Ev.noNext]⟩
  | n :: rest, key, d, fs =>
    match n with
    | Node.DefaultHandler dv =>
        -- def handle_request(self, key): return self.default_value
        ⟨Except.ok dv, fs, [Ev.visit d]⟩
    | Node.ArgHandler args =>
        -- if key in self.args: return getattr(self.args, key, None)
        match List.lookup key args with
        | some v => ⟨Except.ok v, fs, [Ev.visit d]⟩
        | Option.none =>
            let o := resolve envv jloads rest key (d + 1) fs
            ⟨o.result, o.fs, Ev.visit d :: o.log⟩
    | Node.EnvHandler =>
        -- if key in os.environ: return os.environ.get(key)
        match List.lookup key envv with
        | some s => ⟨Except.ok (Value.str s), fs, [Ev.visit d]⟩
        | Option.none =>
            let o := resolve envv jloads rest key (d + 1) fs
            ⟨o.result, o.fs, Ev.visit d :: o.log⟩
    | Node.DictHandler dd =>
        -- if key in self.data_dict: return self.data_dict[key]
        match List.lookup key dd with
        | some v => ⟨Except.ok v, fs, [Ev.visit d]⟩
        | Option.none =>
            let o := resolve envv jloads rest key (d + 1) fs
            ⟨o.result, o.fs, Ev.visit d :: o.log⟩
    | Node.FileHandler path hook =>
        let m := mount_step path hook d fs
        -- if os.path.exists(self.file_path): return file.read()
        match List.lookup path m.1 with
        | some content => ⟨Except.ok (Value.str content), m.1, Ev.visit d :: m.2⟩
        | Option.none =>
            let o := resolve envv jloads rest key (d + 1) m.1
            ⟨o.result, o.fs, Ev.visit d :: m.2 ++ o.log⟩
    | Node.JSONFileHandler path hook =>
        let m := mount_step path hook d fs
        -- file_data = super().handle_request(key): the FileHandler body,
        -- inlined; when the file is absent it delegates to the successor.
        let fd : Outcome :=
          match List.lookup path m.1 with
          | some content => ⟨Except.ok (Value.str content), m.1, []⟩
          | Option.none => resolve envv jloads rest key (d + 1) m.1
        match fd.result with
        | Except.error e => ⟨Except.error e, fd.fs, Ev.visit d :: m.2 ++ fd.log⟩
        | Except.ok file_data =>
          if truthy file_data then
            -- json_data = json.loads(file_data)
            match json_loads_value jloads file_data with
            | Except.error e => ⟨Except.error e, fd.fs, Ev.visit d :: m.2 ++ fd.log⟩
            | Except.ok json_data =>
              -- if key in json_data: return json_data[key]
              match py_contains json_data key with
              | Except.error e => ⟨Except.error e, fd.fs, Ev.visit d :: m.2 ++ fd.log⟩
              | Except.ok true =>
                  match py_getitem json_data key with
                  | Except.error e => ⟨Except.error e, fd.fs, Ev.visit d :: m.2 ++ fd.log⟩
                  | Except.ok v => ⟨Except.ok v, fd.fs, Ev.visit d :: m.2 ++ fd.log⟩
              | Except.ok false =>
                  -- return self.get_from_next_handler(key): a second
                  -- delegation to the same successor.
                  let o2 := resolve envv jloads rest key (d + 1) fd.fs
                  ⟨o2.result, o2.fs, Ev.visit d :: m.2 ++ fd.log ++ o2.log⟩
          else
            let o2 := resolve envv jloads rest key (d + 1) fd.fs
            ⟨o2.result, o2.fs, Ev.visit d :: m.2 ++ fd.log ++ o2.log⟩

/-- The dictionary merge in DictHandler.__init__:
self.data_dict = ( ... )  built from the initial mapping and the parsed
file data, with the file data winning on key collisions.  Represented so
that lookups agree with the Python dict double-splat merge: keys of the
initial mapping that also occur in the file data are dropped, then the
file data is appended. -/
def dict_merge (a b : List (String × Value)) : List (String × Value) :=
  a.filter (fun kv => (List.lookup kv.1 b).isNone) ++ b

/-- DictHandler.__init__: store the initial mapping; if a truthy file
path is given, open the file (FileNotFoundError if absent), parse it
with yaml.safe_load (a parse failure propagates) and merge the parsed
data over the initial mapping.  Returns the resulting data_dict or the
raised exception. -/
def DictHandler_init (data_dict : List (String × Value)) (file_path : Option String)
    (fs : FS) (yloads : String → Except Err (List (String × Value))) :
    Except Err (List (String × Value)) :=
  match file_path with
  | some p =>
      if p = "" then Except.ok data_dict
      else
        match List.lookup p fs with
        | Option.none => Except.error (Err.fileNotFound p)
        | some content =>
            match yloads content with
            | Except.error e => Except.error e
            | Except.ok yaml_data => Except.ok (dict_merge data_dict yaml_data)
  | Option.none => Except.ok data_dict

/-- Leading decimal digits of a character list, and the remainder. -/
def takeDigits : List Char → List Char × List Char
  | [] => ([], [])
  | c :: cs =>
      if c.isDigit then
        let r := takeDigits cs
        (c :: r.1, r.2)
      else ([], c :: cs)

/-- Numeric value of a list of decimal digit characters. -/
def digitsVal (ds : List Char) : Nat :=
  ds.foldl (fun acc c => acc * 10 + (c.toNat - 48)) 0

/-- Match one optional regex group ((\d+)X)? at the front of the input,
where X is the marker character (m or s): one or more digits followed by
the marker.  Returns the parsed number (or none if the group matched
empty) and the remaining input.  Greedy digit matching is equivalent to
the regex here because a maximal digit run is followed by a non-digit,
so no shorter digit run can be followed by the marker. -/
def matchGroup (marker : Char) (cs : List Char) : Option Nat × List Char :=
  let r := takeDigits cs
  match r.1, r.2 with
  | [], _ => (Option.none, cs)
  | _ :: _, c :: rest2 =>
      if c = marker then (some (digitsVal r.1), rest2) else (Option.none, cs)
  | _ :: _, [] => (Option.none, cs)

/-- Full match of a string against the anchored pattern with a minutes
group then a seconds group, both optional; returns the two captures on
success. -/
def matchMinSec (s : String) : Option (Option Nat × Option Nat) :=
  let g1 := matchGroup 'm' s.data
  let g2 := matchGroup 's' g1.2
  if g2.2.isEmpty then some (g1.1, g2.1) else Option.none

/-- Full match against the swapped pattern: seconds group then minutes
group, both optional. -/
def matchSecMin (s : String) : Option (Option Nat × Option Nat) :=
  let g1 := matchGroup 's' s.data
  let g2 := matchGroup 'm' g1.2
  if g2.2.isEmpty then some (g2.1, g1.1) else Option.none

/-- duration_in_seconds from src/fixme/cli.py: try the minutes-then-
seconds pattern, then the seconds-then-minutes pattern, else raise
ValueError; a missing component counts as zero. -/
def duration_in_seconds (time_str : String) : Except Err Nat :=
  match matchMinSec time_str with
  | some g => Except.ok (g.1.getD 0 * 60 + g.2.getD 0)
  | Option.none =>
      match matchSecMin time_str with
      | some g => Except.ok (g.1.getD 0 * 60 + g.2.getD 0)
      | Option.none => Except.error (Err.valueErr time_str)

/-- duration_in_seconds from src/fixme/__main__.py: only the minutes-
then-seconds pattern is tried; any other string raises ValueError. -/
def main_duration_in_seconds (time_str : String) : Except Err Nat :=
  match matchMinSec time_str with
  | some g => Except.ok (g.1.getD 0 * 60 + g.2.getD 0)
  | Option.none => Except.error (Err.valueErr time_str)

/-- A concrete JSON decoder that fails on every input, used to
instantiate the jloads parameter in concrete scenarios where no JSON
parsing is ever reached. -/
def jl0 : String → Except Err Value := fun _ => Except.error (Err.jsonErr "bad json")

/-- The expected event log of a traversal that enters every node once in
order: one visit event per position, starting at position d. -/
def visits : Nat → Nat → List Ev
  | _, 0 => []
  | d, Nat.succ n => Ev.visit d :: visits (d + 1) n

/-- A node that cannot answer the given key in the given environment and
filesystem: Default Sources always answer; Argument, Environment and
Mapping Sources answer when the key is a member of their namespace; File
Sources answer when the file exists (a configured mount hook could make
it exist, so the node is only unable to answer when no hook is set). -/
def cannotAnswer (envv : List (String × String)) (fs : FS) (key : String) : Node → Bool
  | Node.DefaultHandler _ => false
  | Node.ArgHandler args => (List.lookup key args).isNone
  | Node.EnvHandler => (List.lookup key envv).isNone
  | Node.DictHandler dd => (List.lookup key dd).isNone
  | Node.FileHandler path hook => hook.isNone && (List.lookup path fs).isNone
  | Node.JSONFileHandler path hook => hook.isNone && (List.lookup path fs).isNone

/-- Whether a node is a Structured File Source (JSONFileHandler). -/
def isJSONNode : Node → Bool
  | Node.JSONFileHandler _ _ => true
  | _ => false

/-- Whether an event carries a chain position of at least d (the noNext
event carries no position and counts as true). -/
def evDepthGe (d : Nat) : Ev → Bool
  | Ev.visit i => d ≤ i
  | Ev.hookCall i => d ≤ i
  | Ev.noNext => true

/-! ## Helper lemmas -/

/-- Looking a key up in the merged mapping finds the file value whenever
the file data contains the key (the file wins on collision). -/
theorem lookup_dict_merge_file (a b : List (String × Value)) (k : String) (v : Value)
    (h : List.lookup k b = some v) :
    List.lookup k (dict_merge a b) = some v := by
  induction a with
  | nil => simpa [dict_merge] using h
  | cons kv a2 ih =>
      obtain ⟨k0, v0⟩ := kv
      by_cases hb : (List.lookup k0 b).isNone
      · have hk : ¬ k = k0 := by
          intro hkk
          subst hkk
          rw [h] at hb
          simp at hb
        have hne : (k == k0) = false := by simp [hk]
        simpa [dict_merge, List.filter, hb, List.lookup, hne] using ih
      · simpa [dict_merge, List.filter, hb] using ih

/-- Looking a key up in the merged mapping falls back to the initial
mapping when the file data does not contain the key. -/
theorem lookup_dict_merge_initial (a b : List (String × Value)) (k : String)
    (h : List.lookup k b = Option.none) :
    List.lookup k (dict_merge a b) = List.lookup k a := by
  induction a with
  | nil => simpa [dict_merge] using h
  | cons kv a2 ih =>
      obtain ⟨k0, v0⟩ := kv
      by_cases hk : k = k0
      · subst hk
        have hb : (List.lookup k b).isNone := by simp [h]
        simp [dict_merge, List.filter, hb, List.lookup]
      · have hne : (k == k0) = false := by simp [hk]
        by_cases hb : (List.lookup k0 b).isNone
        · simpa [dict_merge, List.filter, hb, List.lookup, hne] using ih
        · simpa [dict_merge, List.filter, hb, List.lookup, hne] using ih

/-- An event whose position is at least d + 1 also has position at
least d. -/
theorem evDepthGe_mono (d : Nat) (e : Ev) (h : evDepthGe (d + 1) e = true) :
    evDepthGe d e = true := by
  cases e <;> simp [evDepthGe] at h ⊢ <;> omega

/-- The mount step either records nothing or exactly one hook
invocation at the node's own position. -/
theorem mount_step_log (path : String) (hook : Option (FS → FS)) (d : Nat) (fs : FS) :
    (mount_step path hook d fs).2 = [] ∨ (mount_step path hook d fs).2 = [Ev.hookCall d] := by
  cases hook with
  | none => simp [mount_step]
  | some f =>
      simp only [mount_step]
      split
      · exact Or.inl rfl
      · exact Or.inr rfl

/-- Every event recorded by a traversal that starts at position d
carries a position of at least d: events of the successors of a node
never masquerade as events of that node. -/
theorem resolve_log_depth (envv : List (String × String)) (jloads : String → Except Err Value)
    (key : String) :
    ∀ (chain : List Node) (d : Nat) (fs : FS) (e : Ev),
      e ∈ (resolve envv jloads chain key d fs).log → evDepthGe d e = true := by
  intro chain
  induction chain with
  | nil =>
      intro d fs e he
      simp [resolve] at he
      subst he
      simp [evDepthGe]
  | cons n rest ih =>
    intro d fs e he
    have ihm : ∀ fs2 e2, e2 ∈ (resolve envv jloads rest key (d + 1) fs2).log →
        evDepthGe d e2 = true :=
      fun fs2 e2 h2 => evDepthGe_mono d e2 (ih (d + 1) fs2 e2 h2)
    have hvis : evDepthGe d (Ev.visit d) = true := by simp [evDepthGe]
    have hhk : evDepthGe d (Ev.hookCall d) = true := by simp [evDepthGe]
    cases n with
    | DefaultHandler dv =>
        simp [resolve] at he
        subst he
        exact hvis
    | ArgHandler args =>
        simp only [resolve] at he
        cases hl : List.lookup key args with
        | some v =>
            rw [hl] at he
            simp at he
            subst he
            exact hvis
        | none =>
            rw [hl] at he
            simp at he
            rcases he with he | he
            · subst he; exact hvis
            · exact ihm fs e he
    | EnvHandler =>
        simp only [resolve] at he
        cases hl : List.lookup key envv with
        | some v =>
            rw [hl] at he
            simp at he
            subst he
            exact hvis
        | none =>
            rw [hl] at he
            simp at he
            rcases he with he | he
            · subst he; exact hvis
            · exact ihm fs e he
    | DictHandler dd =>
        simp only [resolve] at he
        cases hl : List.lookup key dd with
        | some v =>
            rw [hl] at he
            simp at he
            subst he
            exact hvis
        | none =>
            rw [hl] at he
            simp at he
            rcases he with he | he
            · subst he; exact hvis
            · exact ihm fs e he
    | FileHandler path hook =>
        simp only [resolve] at he
        rcases mount_step_log path hook d fs with hm | hm <;>
          cases hl : List.lookup path (mount_step path hook d fs).1 <;>
            rw [hl] at he <;> simp [hm] at he
        · rcases he with he | he
          · subst he; exact hvis
          · exact ihm _ e he
        · subst he; exact hvis
        · rcases he with he | he | he
          · subst he; exact hvis
          · subst he; exact hhk
          · exact ihm _ e he
        · rcases he with he | he
          · subst he; exact hvis
          · subst he; exact hhk
    | JSONFileHandler path hook =>
        have hmem : ∀ x ∈ (mount_step path hook d fs).2, evDepthGe d x = true := by
          intro x hx
          rcases mount_step_log path hook d fs with hm | hm <;> rw [hm] at hx <;> simp at hx
          rw [hx]
          exact hhk
        simp only [resolve] at he
        cases hl : List.lookup path (mount_step path hook d fs).1 with
        | some content =>
            rw [hl] at he
            by_cases hct : content = ""
            · subst hct
              simp [truthy] at he
              rcases he with he | he | he
              · rw [he]; exact hvis
              · exact hmem e he
              · exact ihm _ e he
            · simp only [truthy, json_loads_value] at he
              rw [if_pos (by simp [hct])] at he
              cases hjl : jloads content with
              | error e1 =>
                  rw [hjl] at he
                  simp at he
                  rcases he with he | he
                  · rw [he]; exact hvis
                  · exact hmem e he
              | ok jd =>
                  rw [hjl] at he
                  simp only [] at he
                  cases hpc : py_contains jd key with
                  | error e2 =>
                      rw [hpc] at he
                      simp at he
                      rcases he with he | he
                      · rw [he]; exact hvis
                      · exact hmem e he
                  | ok b =>
                      rw [hpc] at he
                      cases b with
                      | true =>
                          simp only [] at he
                          cases hgi : py_getitem jd key with
                          | error e3 =>
                              rw [hgi] at he
                              simp at he
                              rcases he with he | he
                              · rw [he]; exact hvis
                              · exact hmem e he
                          | ok v =>
                              rw [hgi] at he
                              simp at he
                              rcases he with he | he
                              · rw [he]; exact hvis
                              · exact hmem e he
                      | false =>
                          simp at he
                          rcases he with he | he | he
                          · rw [he]; exact hvis
                          · exact hmem e he
                          · exact ihm _ e he
        | none =>
            rw [hl] at he
            cases hfd : (resolve envv jloads rest key (d + 1) (mount_step path hook d fs).1).result with
            | error e1 =>
                rw [hfd] at he
                simp at he
                rcases he with he | he | he
                · rw [he]; exact hvis
                · exact hmem e he
                · exact ihm _ e he
            | ok fdv =>
                rw [hfd] at he
                simp only [] at he
                by_cases htv : truthy fdv = true
                · rw [if_pos htv] at he
                  cases hjv : json_loads_value jloads fdv with
                  | error e1 =>
                      rw [hjv] at he
                      simp at he
                      rcases he with he | he | he
                      · rw [he]; exact hvis
                      · exact hmem e he
                      · exact ihm _ e he
                  | ok jd =>
                      rw [hjv] at he
                      simp only [] at he
                      cases hpc : py_contains jd key with
                      | error e2 =>
                          rw [hpc] at he
                          simp at he
                          rcases he with he | he | he
                          · rw [he]; exact hvis
                          · exact hmem e he
                          · exact ihm _ e he
                      | ok b =>
                          rw [hpc] at he
                          cases b with
                          | true =>
                              simp only [] at he
                              cases hgi : py_getitem jd key with
                              | error e3 =>
                                  rw [hgi] at he
                                  simp at he
                                  rcases he with he | he | he
                                  · rw [he]; exact hvis
                                  · exact hmem e he
                                  · exact ihm _ e he
                              | ok v =>
                                  rw [hgi] at he
                                  simp at he
                                  rcases he with he | he | he
                                  · rw [he]; exact hvis
                                  · exact hmem e he
                                  · exact ihm _ e he
                          | false =>
                              simp at he
                              rcases he with he | he | he | he
                              · rw [he]; exact hvis
                              · exact hmem e he
                              · exact ihm _ e he
                              · exact ihm _ e he
                · rw [if_neg htv] at he
                  simp at he
                  rcases he with he | he | he | he
                  · rw [he]; exact hvis
                  · exact hmem e he
                  · exact ihm _ e he
                  · exact ihm _ e he

/-- A chain whose last node is a Default Source never executes the
no-successor fallback of get_from_next_handler: the noNext event never
appears in the log. -/
theorem resolve_no_exhaustion (envv : List (String × String))
    (jloads : String → Except Err Value) (key : String) :
    ∀ (chain : List Node) (dv : Value),
      chain.getLast? = some (Node.DefaultHandler dv) →
      ∀ (d : Nat) (fs : FS), Ev.noNext ∉ (resolve envv jloads chain key d fs).log := by
  intro chain
  induction chain with
  | nil =>
      intro dv h
      simp at h
  | cons n rest ih =>
    intro dv hlast d fs he
    by_cases hre : rest = []
    · subst hre
      have hn : n = Node.DefaultHandler dv := by simpa using hlast
      subst hn
      simp [resolve] at he
    · have hlast2 : rest.getLast? = some (Node.DefaultHandler dv) := by
        cases rest with
        | nil => exact absurd rfl hre
        | cons b t => simpa [List.getLast?_cons_cons] using hlast
      have ihm : ∀ (d2 : Nat) (fs2 : FS),
          Ev.noNext ∉ (resolve envv jloads rest key d2 fs2).log :=
        fun d2 fs2 => ih dv hlast2 d2 fs2
      cases n with
      | DefaultHandler dv2 => simp [resolve] at he
      | ArgHandler args =>
          simp only [resolve] at he
          cases hl : List.lookup key args with
          | some v => rw [hl] at he; simp at he
          | none =>
              rw [hl] at he
              simp at he
              exact ihm _ _ he
      | EnvHandler =>
          simp only [resolve] at he
          cases hl : List.lookup key envv with
          | some v => rw [hl] at he; simp at he
          | none =>
              rw [hl] at he
              simp at he
              exact ihm _ _ he
      | DictHandler dd =>
          simp only [resolve] at he
          cases hl : List.lookup key dd with
          | some v => rw [hl] at he; simp at he
          | none =>
              rw [hl] at he
              simp at he
              exact ihm _ _ he
      | FileHandler path hook =>
          have hmem : Ev.noNext ∉ (mount_step path hook d fs).2 := by
            rcases mount_step_log path hook d fs with hm | hm <;> simp [hm]
          simp only [resolve] at he
          cases hl : List.lookup path (mount_step path hook d fs).1 with
          | some content =>
              rw [hl] at he
              simp at he
              exact hmem he
          | none =>
              rw [hl] at he
              simp at he
              rcases he with he | he
              · exact hmem he
              · exact ihm _ _ he
      | JSONFileHandler path hook =>
          have hmem : Ev.noNext ∉ (mount_step path hook d fs).2 := by
            rcases mount_step_log path hook d fs with hm | hm <;> simp [hm]
          simp only [resolve] at he
          cases hl : List.lookup path (mount_step path hook d fs).1 with
          | some content =>
              rw [hl] at he
              by_cases hct : content = ""
              · subst hct
                simp [truthy] at he
                rcases he with he | he
                · exact hmem he
                · exact ihm _ _ he
              · simp only [truthy, json_loads_value] at he
                rw [if_pos (by simp [hct])] at he
                cases hjl : jloads content with
                | error e1 =>
                    rw [hjl] at he
                    simp at he
                    exact hmem he
                | ok jd =>
                    rw [hjl] at he
                    simp only [] at he
                    cases hpc : py_contains jd key with
                    | error e2 =>
                        rw [hpc] at he
                        simp at he
                        exact hmem he
                    | ok b =>
                        rw [hpc] at he
                        cases b with
                        | true =>
                            simp only [] at he
                            cases hgi : py_getitem jd key with
                            | error e3 =>
                                rw [hgi] at he
                                simp at he
                                exact hmem he
                            | ok v =>
                                rw [hgi] at he
                                simp at he
                                exact hmem he
                        | false =>
                            simp at he
                            rcases he with he | he
                            · exact hmem he
                            · exact ihm _ _ he
          | none =>
              rw [hl] at he
              cases hfd : (resolve envv jloads rest key (d + 1)
                  (mount_step path hook d fs).1).result with
              | error e1 =>
                  rw [hfd] at he
                  simp at he
                  rcases he with he | he
                  · exact hmem he
                  · exact ihm _ _ he
              | ok fdv =>
                  rw [hfd] at he
                  simp only [] at he
                  by_cases htv : truthy fdv = true
                  · rw [if_pos htv] at he
                    cases hjv : json_loads_value jloads fdv with
                    | error e1 =>
                        rw [hjv] at he
                        simp at he
                        rcases he with he | he
                        · exact hmem he
                        · exact ihm _ _ he
                    | ok jd =>
                        rw [hjv] at he
                        simp only [] at he
                        cases hpc : py_contains jd key with
                        | error e2 =>
                            rw [hpc] at he
                            simp at he
                            rcases he with he | he
                            · exact hmem he
                            · exact ihm _ _ he
                        | ok b =>
                            rw [hpc] at he
                            cases b with
                            | true =>
                                simp only [] at he
                                cases hgi : py_getitem jd key with
                                | error e3 =>
                                    rw [hgi] at he
                                    simp at he
                                    rcases he with he | he
                                    · exact hmem he
                                    · exact ihm _ _ he
                                | ok v =>
                                    rw [hgi] at he
                                    simp at he
                                    rcases he with he | he
                                    · exact hmem he
                                    · exact ihm _ _ he
                            | false =>
                                simp at he
                                rcases he with he | he | he
                                · exact hmem he
                                · exact ihm _ _ he
                                · exact ihm _ _ he
                  · rw [if_neg htv] at he
                    simp at he
                    rcases he with he | he | he
                    · exact hmem he
                    · exact ihm _ _ he
                    · exact ihm _ _ he

/-- In a chain with no Structured File Source in which no node can
answer, resolution returns None, leaves the filesystem unchanged, and
visits every node exactly once in head-to-tail order before the
no-successor fallback runs. -/
theorem no_answer_exact_traversal (envv : List (String × String))
    (jloads : String → Except Err Value) (key : String) (fs : FS) :
    ∀ (chain : List Node),
      (∀ n ∈ chain, cannotAnswer envv fs key n = true) →
      (∀ n ∈ chain, isJSONNode n = false) →
      ∀ (d : Nat), resolve envv jloads chain key d fs
        = ⟨Except.ok Value.none, fs, visits d chain.length ++ [Ev.noNext]⟩ := by
  intro chain
  induction chain with
  | nil =>
      intro _ _ d
      simp [resolve, visits]
  | cons n rest ih =>
    intro hall hnj d
    have hh := hall n (by simp)
    have ihd := ih (fun m hm => hall m (by simp [hm])) (fun m hm => hnj m (by simp [hm]))
    cases n with
    | DefaultHandler dv => simp [cannotAnswer] at hh
    | ArgHandler args =>
        have hl : List.lookup key args = Option.none := by
          simpa [cannotAnswer, Option.isNone_iff_eq_none] using hh
        simp [resolve, hl, ihd, visits, List.length_cons]
    | EnvHandler =>
        have hl : List.lookup key envv = Option.none := by
          simpa [cannotAnswer, Option.isNone_iff_eq_none] using hh
        simp [resolve, hl, ihd, visits, List.length_cons]
    | DictHandler dd =>
        have hl : List.lookup key dd = Option.none := by
          simpa [cannotAnswer, Option.isNone_iff_eq_none] using hh
        simp [resolve, hl, ihd, visits, List.length_cons]
    | FileHandler path hook =>
        cases hook with
        | some f => simp [cannotAnswer] at hh
        | none =>
            have hl : List.lookup path fs = Option.none := by
              simpa [cannotAnswer, Option.isNone_iff_eq_none] using hh
            simp [resolve, mount_step, hl, ihd, visits, List.length_cons]
    | JSONFileHandler path hook =>
        have := hnj (Node.JSONFileHandler path hook) (by simp)
        simp [isJSONNode] at this

/-- The log of a traversal of the successors (starting at position 1)
never contains a hook invocation of the head node (position 0). -/
theorem hookCall_zero_not_mem_tail (envv : List (String × String))
    (jloads : String → Except Err Value) (rest : List Node) (key : String) (fs : FS) :
    Ev.hookCall 0 ∉ (resolve envv jloads rest key 1 fs).log := by
  intro h
  have := resolve_log_depth envv jloads key rest 1 fs _ h
  simp [evDepthGe] at this

/-! ## Claim C1 -/

/-- Claim C1, counterexample: a chain whose final node is a Default
Source constructed with default_value None returns None, which is
exactly the NoAnswer value returned by an exhausted chain. -/
theorem c1_counterexample :
    (resolve [] jl0 [Node.DefaultHandler Value.none] "K" 0 []).result = Except.ok Value.none
    ∧ (resolve [] jl0 [] "K" 0 []).result = Except.ok Value.none :=
  ⟨rfl, rfl⟩

/-- Claim C1 (amended): for every chain whose final node is a Default
Source, resolve(key) never executes the no-successor fallback of
get_from_next_handler (the code path that produces NoAnswer for lack of
a successor); the observable return value can nevertheless be None when
the configured default value is None. -/
theorem c1_default_terminal_no_exhaustion (envv : List (String × String))
    (jloads : String → Except Err Value) (key : String) (chain : List Node) (dv : Value)
    (hlast : chain.getLast? = some (Node.DefaultHandler dv)) (d : Nat) (fs : FS) :
    Ev.noNext ∉ (resolve envv jloads chain key d fs).log :=
  resolve_no_exhaustion envv jloads key chain dv hlast d fs

/-- Claim C1, witness: a concrete chain ending in a Default Source. -/
theorem c1_witness :
    Ev.noNext ∉ (resolve [] jl0
      [Node.EnvHandler, Node.DefaultHandler (Value.str "fixme")] "K" 0 []).log :=
  c1_default_terminal_no_exhaustion [] jl0 "K"
    [Node.EnvHandler, Node.DefaultHandler (Value.str "fixme")]
    (Value.str "fixme") rfl 0 []

/-! ## Claim C2 -/

/-- Claim C2, counterexample: in the chain whose head is a Structured
File Source with an absent backing file and whose second node is an
Environment Source unable to answer, resolution returns None but the
second node is visited twice, refuting the exactly-once traversal. -/
theorem c2_counterexample :
    resolve [] jl0 [Node.JSONFileHandler "f" Option.none, Node.EnvHandler] "K" 0 []
      = ⟨Except.ok Value.none, [],
          [Ev.visit 0, Ev.visit 1, Ev.noNext, Ev.visit 1, Ev.noNext]⟩
    ∧ (resolve [] jl0 [Node.JSONFileHandler "f" Option.none, Node.EnvHandler]
        "K" 0 []).log.count (Ev.visit 1) = 2 :=
  ⟨rfl, rfl⟩

/-- Claim C2 (amended): for chains with no terminal Default Source, no
Structured File Source, and no node able to answer, resolve(key)
returns NoAnswer and handle_request runs on every node exactly once in
head-to-tail order; a Structured File Source with an absent backing
file invokes its successors twice, so the exactly-once property does
not extend to chains containing one. -/
theorem c2_no_answer_exact_traversal (envv : List (String × String))
    (jloads : String → Except Err Value) (key : String) (fs : FS) (chain : List Node)
    (hall : ∀ n ∈ chain, cannotAnswer envv fs key n = true)
    (hnj : ∀ n ∈ chain, isJSONNode n = false) (d : Nat) :
    resolve envv jloads chain key d fs
      = ⟨Except.ok Value.none, fs, visits d chain.length ++ [Ev.noNext]⟩ :=
  no_answer_exact_traversal envv jloads key fs chain hall hnj d

/-- Claim C2, witness: a three-node chain in which nothing answers. -/
theorem c2_witness :
    resolve [] jl0 [Node.ArgHandler [], Node.EnvHandler, Node.FileHandler "p" Option.none]
        "K" 0 []
      = ⟨Except.ok Value.none, [], visits 0 3 ++ [Ev.noNext]⟩ := by
  have h := c2_no_answer_exact_traversal [] jl0 "K" []
    [Node.ArgHandler [], Node.EnvHandler, Node.FileHandler "p" Option.none]
    (by decide) (by decide) 0
  simpa using h

/-! ## Claim C3 -/

/-- Claim C3, counterexample: a Mapping Source that maps the key to the
stored value None answers with None, indistinguishable from the
NoAnswer signal of an exhausted empty chain, so NoAnswer is not a
unique value distinct from every real answer. -/
theorem c3_counterexample :
    List.lookup "K" [("K", Value.none)] = some Value.none
    ∧ (resolve [] jl0 [Node.DictHandler [("K", Value.none)]] "K" 0 []).result
        = (resolve [] jl0 [] "K" 0 []).result
    ∧ (resolve [] jl0 [Node.DictHandler [("K", Value.none)]] "K" 0 []).result
        = Except.ok Value.none :=
  ⟨rfl, rfl, rfl⟩

/-- Claim C3 (amended): the NoAnswer signal is the value None, which is
distinct from the empty string and from zero: a source holding an empty
string or zero for the key returns that value, never confused with
NoAnswer; but None itself can be stored as a real value, and is then
returned indistinguishably from NoAnswer. -/
theorem c3_falsy_values_distinct_from_no_answer
    (dd d2 dn : List (String × Value)) (rest : List Node) (key : String)
    (envv : List (String × String)) (jloads : String → Except Err Value) (fs : FS)
    (h0 : List.lookup key dd = some (Value.str ""))
    (h2 : List.lookup key d2 = some (Value.int 0))
    (hn : List.lookup key dn = some Value.none) :
    Value.str "" ≠ Value.none
    ∧ Value.int 0 ≠ Value.none
    ∧ resolve envv jloads (Node.DictHandler dd :: rest) key 0 fs
        = ⟨Except.ok (Value.str ""), fs, [Ev.visit 0]⟩
    ∧ resolve envv jloads (Node.DictHandler d2 :: rest) key 0 fs
        = ⟨Except.ok (Value.int 0), fs, [Ev.visit 0]⟩
    ∧ (resolve envv jloads (Node.DictHandler dn :: rest) key 0 fs).result
        = Except.ok Value.none :=
  ⟨by simp, by simp, by simp [resolve, h0], by simp [resolve, h2], by simp [resolve, hn]⟩

/-- Claim C3, witness. -/
theorem c3_witness :
    Value.str "" ≠ Value.none
    ∧ Value.int 0 ≠ Value.none
    ∧ resolve [] jl0 (Node.DictHandler [("E", Value.str "")] :: []) "E" 0 []
        = ⟨Except.ok (Value.str ""), [], [Ev.visit 0]⟩
    ∧ resolve [] jl0 (Node.DictHandler [("E", Value.int 0)] :: []) "E" 0 []
        = ⟨Except.ok (Value.int 0), [], [Ev.visit 0]⟩
    ∧ (resolve [] jl0 (Node.DictHandler [("E", Value.none)] :: []) "E" 0 []).result
        = Except.ok Value.none :=
  c3_falsy_values_distinct_from_no_answer
    [("E", Value.str "")] [("E", Value.int 0)] [("E", Value.none)] [] "E" [] jl0 []
    rfl rfl rfl

/-! ## Claim C4 -/

/-- Claim C4: a Raw File Source with a configured mount hook and an
absent backing file invokes the hook exactly once during the call; if
the hook makes the file exist, that same call returns the entire file
contents (for any key); if the hook leaves the file absent, or no hook
is configured, the call delegates to the successors. -/
theorem c4_mount_hook (path : String) (f g : FS → FS) (rest : List Node) (key : String)
    (envv : List (String × String)) (jloads : String → Except Err Value) (fs : FS)
    (content : String)
    (habs : List.lookup path fs = Option.none)
    (hf : List.lookup path (f fs) = some content)
    (hg : List.lookup path (g fs) = Option.none) :
    resolve envv jloads (Node.FileHandler path (some f) :: rest) key 0 fs
      = ⟨Except.ok (Value.str content), f fs, [Ev.visit 0, Ev.hookCall 0]⟩
    ∧ (resolve envv jloads (Node.FileHandler path (some f) :: rest) key 0 fs).log.count
        (Ev.hookCall 0) = 1
    ∧ resolve envv jloads (Node.FileHandler path (some g) :: rest) key 0 fs
      = ⟨(resolve envv jloads rest key 1 (g fs)).result,
          (resolve envv jloads rest key 1 (g fs)).fs,
          Ev.visit 0 :: Ev.hookCall 0 :: (resolve envv jloads rest key 1 (g fs)).log⟩
    ∧ (resolve envv jloads (Node.FileHandler path (some g) :: rest) key 0 fs).log.count
        (Ev.hookCall 0) = 1
    ∧ resolve envv jloads (Node.FileHandler path Option.none :: rest) key 0 fs
      = ⟨(resolve envv jloads rest key 1 fs).result,
          (resolve envv jloads rest key 1 fs).fs,
          Ev.visit 0 :: (resolve envv jloads rest key 1 fs).log⟩
    ∧ (resolve envv jloads (Node.FileHandler path Option.none :: rest) key 0 fs).log.count
        (Ev.hookCall 0) = 0 := by
  have habs' : (List.lookup path fs).isSome = false := by simp [habs]
  have hcg : List.count (Ev.hookCall 0) (resolve envv jloads rest key 1 (g fs)).log = 0 :=
    List.count_eq_zero.mpr (hookCall_zero_not_mem_tail envv jloads rest key (g fs))
  have hcn : List.count (Ev.hookCall 0) (resolve envv jloads rest key 1 fs).log = 0 :=
    List.count_eq_zero.mpr (hookCall_zero_not_mem_tail envv jloads rest key fs)
  refine ⟨?_, ?_, ?_, ?_, ?_, ?_⟩
  · simp [resolve, mount_step, habs', hf]
  · simp [resolve, mount_step, habs', hf, List.count_cons]
  · simp [resolve, mount_step, habs', hg]
  · simp [resolve, mount_step, habs', hg, List.count_cons, hcg]
  · simp [resolve, mount_step, habs]
  · simp [resolve, mount_step, habs, List.count_cons, hcn]

/-- Claim C4, witness: a hook that creates the file, a hook that does
not, and no hook. -/
theorem c4_witness :
    resolve [] jl0 [Node.FileHandler "cfg" (some (fun fs => ("cfg", "data") :: fs)),
        Node.EnvHandler] "K" 0 []
      = ⟨Except.ok (Value.str "data"), [("cfg", "data")], [Ev.visit 0, Ev.hookCall 0]⟩
    ∧ (resolve [] jl0 [Node.FileHandler "cfg" (some (fun fs => ("cfg", "data") :: fs)),
        Node.EnvHandler] "K" 0 []).log.count (Ev.hookCall 0) = 1
    ∧ resolve [] jl0 [Node.FileHandler "cfg" (some (fun fs => fs)), Node.EnvHandler] "K" 0 []
      = ⟨(resolve [] jl0 [Node.EnvHandler] "K" 1 []).result,
          (resolve [] jl0 [Node.EnvHandler] "K" 1 []).fs,
          Ev.visit 0 :: Ev.hookCall 0 :: (resolve [] jl0 [Node.EnvHandler] "K" 1 []).log⟩
    ∧ (resolve [] jl0 [Node.FileHandler "cfg" (some (fun fs => fs)), Node.EnvHandler]
        "K" 0 []).log.count (Ev.hookCall 0) = 1
    ∧ resolve [] jl0 [Node.FileHandler "cfg" Option.none, Node.EnvHandler] "K" 0 []
      = ⟨(resolve [] jl0 [Node.EnvHandler] "K" 1 []).result,
          (resolve [] jl0 [Node.EnvHandler] "K" 1 []).fs,
          Ev.visit 0 :: (resolve [] jl0 [Node.EnvHandler] "K" 1 []).log⟩
    ∧ (resolve [] jl0 [Node.FileHandler "cfg" Option.none, Node.EnvHandler]
        "K" 0 []).log.count (Ev.hookCall 0) = 0 :=
  c4_mount_hook "cfg" (fun fs => ("cfg", "data") :: fs) (fun fs => fs) [Node.EnvHandler]
    "K" [] jl0 [] "data" rfl rfl rfl

/-! ## Claim C5 -/

/-- Claim C5: an Argument Source answers with the stored field value,
whatever it is, exactly when the key names a field of the pre-parsed
record, and otherwise delegates the same key to its successors. -/
theorem c5_arg_source_membership (args args2 : List (String × Value)) (rest : List Node)
    (key : String) (envv : List (String × String)) (jloads : String → Except Err Value)
    (fs : FS) (v : Value)
    (hin : List.lookup key args = some v)
    (hout : List.lookup key args2 = Option.none) :
    resolve envv jloads (Node.ArgHandler args :: rest) key 0 fs
      = ⟨Except.ok v, fs, [Ev.visit 0]⟩
    ∧ resolve envv jloads (Node.ArgHandler args2 :: rest) key 0 fs
      = ⟨(resolve envv jloads rest key 1 fs).result, (resolve envv jloads rest key 1 fs).fs,
          Ev.visit 0 :: (resolve envv jloads rest key 1 fs).log⟩ := by
  constructor
  · simp [resolve, hin]
  · simp [resolve, hout]

/-- Claim C5, witness: a field holding the empty string is returned
without delegation; a missing field delegates. -/
theorem c5_witness :
    resolve [] jl0 (Node.ArgHandler [("name", Value.str "")] :: [Node.EnvHandler])
        "name" 0 []
      = ⟨Except.ok (Value.str ""), [], [Ev.visit 0]⟩
    ∧ resolve [] jl0 (Node.ArgHandler [] :: [Node.EnvHandler]) "name" 0 []
      = ⟨(resolve [] jl0 [Node.EnvHandler] "name" 1 []).result,
          (resolve [] jl0 [Node.EnvHandler] "name" 1 []).fs,
          Ev.visit 0 :: (resolve [] jl0 [Node.EnvHandler] "name" 1 []).log⟩ :=
  c5_arg_source_membership [("name", Value.str "")] [] [Node.EnvHandler] "name" [] jl0 []
    (Value.str "") rfl rfl

/-! ## Claim C6 -/

/-- Claim C6: a Mapping Source constructed from an initial mapping and a
backing file holds the merge of the parsed file data over the initial
mapping; a key present in both resolves to the file value, and a key
present only in the initial mapping resolves to the initial value. -/
theorem c6_mapping_file_wins (a ydata : List (String × Value)) (p : String) (fs : FS)
    (content : String) (yloads : String → Except Err (List (String × Value)))
    (hp : p ≠ "") (hc : List.lookup p fs = some content)
    (hy : yloads content = Except.ok ydata)
    (k1 k2 : String) (v1 v2 w : Value)
    (h1 : List.lookup k1 ydata = some v1) (h1a : List.lookup k1 a = some w)
    (h2 : List.lookup k2 ydata = Option.none) (h2a : List.lookup k2 a = some v2)
    (rest : List Node) (envv : List (String × String))
    (jloads : String → Except Err Value) (fs2 : FS) :
    DictHandler_init a (some p) fs yloads = Except.ok (dict_merge a ydata)
    ∧ resolve envv jloads (Node.DictHandler (dict_merge a ydata) :: rest) k1 0 fs2
        = ⟨Except.ok v1, fs2, [Ev.visit 0]⟩
    ∧ resolve envv jloads (Node.DictHandler (dict_merge a ydata) :: rest) k2 0 fs2
        = ⟨Except.ok v2, fs2, [Ev.visit 0]⟩ := by
  refine ⟨?_, ?_, ?_⟩
  · simp [DictHandler_init, hp, hc, hy]
  · simp [resolve, lookup_dict_merge_file a ydata k1 v1 h1]
  · simp [resolve, (lookup_dict_merge_initial a ydata k2 h2).trans h2a]

/-- Claim C6, witness: initial mapping with keys N and M, file data
overriding N; N resolves to the file value, M to the initial value. -/
theorem c6_witness :
    DictHandler_init [("N", Value.str "old"), ("M", Value.int 5)] (some "c.yaml")
      [("c.yaml", "N: new")]
      (fun c => if c = "N: new" then Except.ok [("N", Value.str "new")]
        else Except.error (Err.yamlErr c))
      = Except.ok (dict_merge [("N", Value.str "old"), ("M", Value.int 5)]
          [("N", Value.str "new")])
    ∧ resolve [] jl0 (Node.DictHandler (dict_merge
        [("N", Value.str "old"), ("M", Value.int 5)] [("N", Value.str "new")]) :: [])
        "N" 0 []
      = ⟨Except.ok (Value.str "new"), [], [Ev.visit 0]⟩
    ∧ resolve [] jl0 (Node.DictHandler (dict_merge
        [("N", Value.str "old"), ("M", Value.int 5)] [("N", Value.str "new")]) :: [])
        "M" 0 []
      = ⟨Except.ok (Value.int 5), [], [Ev.visit 0]⟩ :=
  c6_mapping_file_wins [("N", Value.str "old"), ("M", Value.int 5)] [("N", Value.str "new")]
    "c.yaml" [("c.yaml", "N: new")] "N: new"
    (fun c => if c = "N: new" then Except.ok [("N", Value.str "new")]
      else Except.error (Err.yamlErr c))
    (by decide) rfl (by simp) "N" "M" (Value.str "new") (Value.int 5) (Value.str "old")
    rfl rfl rfl rfl [] [] jl0 []

/-! ## Claim C7 -/

/-- Claim C7, counterexample: a Structured File Source whose backing
file exists with empty content obtains content that fails to parse as
JSON (the decoder rejects the empty string, as json.loads does), yet
the call does not raise: the truthiness gate on file_data skips the
parse and the node delegates past itself, returning the successor's
answer. -/
theorem c7_counterexample :
    jl0 "" = Except.error (Err.jsonErr "bad json")
    ∧ resolve [] jl0
        [Node.JSONFileHandler "j" Option.none, Node.DefaultHandler (Value.str "d")]
        "K" 0 [("j", "")]
      = ⟨Except.ok (Value.str "d"), [("j", "")], [Ev.visit 0, Ev.visit 1]⟩ :=
  ⟨rfl, rfl⟩

/-- Claim C7 (amended): unparsable structured content that actually
reaches a parser is fatal, never converted to NoAnswer: a Mapping
Source whose backing file fails to parse raises at construction time,
and a Structured File Source whose obtained content is non-empty and
fails to parse as JSON raises at call time with no delegation past the
broken node.  Empty obtained content, however, never reaches the JSON
parser: the truthiness gate skips it and the node delegates. -/
theorem c7_fatal_parse_errors (a : List (String × Value)) (p : String)
    (fsd : FS) (content : String) (e1 : Err)
    (yloads : String → Except Err (List (String × Value)))
    (hp : p ≠ "")
    (hc : List.lookup p fsd = some content)
    (hy : yloads content = Except.error e1)
    (path : String) (rest : List Node) (key : String)
    (envv : List (String × String)) (jloads : String → Except Err Value)
    (fsj : FS) (s : String) (e2 : Err)
    (hf : List.lookup path fsj = some s)
    (hs : s ≠ "")
    (hj : jloads s = Except.error e2) :
    DictHandler_init a (some p) fsd yloads = Except.error e1
    ∧ resolve envv jloads (Node.JSONFileHandler path Option.none :: rest) key 0 fsj
        = ⟨Except.error e2, fsj, [Ev.visit 0]⟩ := by
  constructor
  · simp [DictHandler_init, hp, hc, hy]
  · simp [resolve, mount_step, hf, truthy, hs, json_loads_value, hj]

/-- Claim C7, witness: a YAML file that fails to parse at construction
and a JSON file that fails to parse during the call. -/
theorem c7_witness :
    DictHandler_init [] (some "c.yaml") [("c.yaml", "bad: [")]
        (fun c => Except.error (Err.yamlErr c))
      = Except.error (Err.yamlErr "bad: [")
    ∧ resolve [] jl0 (Node.JSONFileHandler "j.json" Option.none :: [Node.EnvHandler])
        "K" 0 [("j.json", "not json")]
      = ⟨Except.error (Err.jsonErr "bad json"), [("j.json", "not json")], [Ev.visit 0]⟩ :=
  c7_fatal_parse_errors [] "c.yaml" [("c.yaml", "bad: [")] "bad: [" (Err.yamlErr "bad: [")
    (fun c => Except.error (Err.yamlErr c)) (by decide) rfl rfl
    "j.json" [Node.EnvHandler] "K" [] jl0 [("j.json", "not json")] "not json"
    (Err.jsonErr "bad json") rfl (by decide) rfl

/-! ## Claim C8 -/

/-- Claim C8, counterexample: the duration parser in
src/fixme/__main__.py rejects the seconds-then-minutes order, raising
ValueError on the string 3s2m instead of returning 123. -/
theorem c8_counterexample :
    main_duration_in_seconds "3s2m" = Except.error (Err.valueErr "3s2m") := rfl

/-- Claim C8 (amended): the duration parser in src/fixme/cli.py accepts
the minutes and seconds components in either order, treats a missing
component as zero and raises ValueError on any other string; the
duplicate parser in src/fixme/__main__.py accepts only the
minutes-then-seconds order, agreeing on 47s, 1m, 2m3s and bogus but
raising ValueError on 3s2m. -/
theorem c8_duration_parsing :
    duration_in_seconds "47s" = Except.ok 47
    ∧ duration_in_seconds "1m" = Except.ok 60
    ∧ duration_in_seconds "2m3s" = Except.ok 123
    ∧ duration_in_seconds "3s2m" = Except.ok 123
    ∧ duration_in_seconds "bogus" = Except.error (Err.valueErr "bogus")
    ∧ main_duration_in_seconds "47s" = Except.ok 47
    ∧ main_duration_in_seconds "1m" = Except.ok 60
    ∧ main_duration_in_seconds "2m3s" = Except.ok 123
    ∧ main_duration_in_seconds "3s2m" = Except.error (Err.valueErr "3s2m")
    ∧ main_duration_in_seconds "bogus" = Except.error (Err.valueErr "bogus") :=
  ⟨rfl, rfl, rfl, rfl, rfl, rfl, rfl, rfl, rfl, rfl⟩

/-! ## Claim C9 -/

/-- Claim C9: a Structured File Source whose backing file does not
exist parses its successors' non-empty string answer as JSON inside
handle_request; if that answer is not valid JSON the call raises the
parse error instead of returning the answer unchanged. -/
theorem c9_json_parses_successor_answer (path : String) (rest : List Node) (key : String)
    (envv : List (String × String)) (jloads : String → Except Err Value)
    (fs : FS) (s : String) (e : Err)
    (hmiss : List.lookup path fs = Option.none)
    (hres : (resolve envv jloads rest key 1 fs).result = Except.ok (Value.str s))
    (hs : s ≠ "")
    (hj : jloads s = Except.error e) :
    (resolve envv jloads (Node.JSONFileHandler path Option.none :: rest) key 0 fs).result
      = Except.error e := by
  simp [resolve, mount_step, hmiss, hres, truthy, hs, json_loads_value, hj]

/-- Claim C9, witness: the environment answers the string notjson,
which the Structured File Source then fails to parse. -/
theorem c9_witness :
    (resolve [("K", "notjson")] jl0
        (Node.JSONFileHandler "j" Option.none :: [Node.EnvHandler]) "K" 0 []).result
      = Except.error (Err.jsonErr "bad json") :=
  c9_json_parses_successor_answer "j" [Node.EnvHandler] "K" [("K", "notjson")] jl0 []
    "notjson" (Err.jsonErr "bad json") rfl rfl (by decide) rfl

/-! ## Claim C10 -/

/-- Claim C10: membership, not truthiness, decides whether the
Environment Source and the Mapping Source answer: a variable defined
with an empty string, or a key mapped to an empty string or zero, is
returned without delegating; only an absent key delegates. -/
theorem c10_membership_not_truthiness (rest : List Node) (key : String)
    (envv1 envv2 : List (String × String)) (d0 d1 d2 : List (String × Value))
    (jloads : String → Except Err Value) (fs : FS)
    (h1 : List.lookup key envv1 = some "")
    (h2 : List.lookup key envv2 = Option.none)
    (h3 : List.lookup key d0 = some (Value.int 0))
    (h4 : List.lookup key d1 = some (Value.str ""))
    (h5 : List.lookup key d2 = Option.none) :
    resolve envv1 jloads (Node.EnvHandler :: rest) key 0 fs
      = ⟨Except.ok (Value.str ""), fs, [Ev.visit 0]⟩
    ∧ resolve envv2 jloads (Node.EnvHandler :: rest) key 0 fs
      = ⟨(resolve envv2 jloads rest key 1 fs).result,
          (resolve envv2 jloads rest key 1 fs).fs,
          Ev.visit 0 :: (resolve envv2 jloads rest key 1 fs).log⟩
    ∧ resolve envv1 jloads (Node.DictHandler d0 :: rest) key 0 fs
      = ⟨Except.ok (Value.int 0), fs, [Ev.visit 0]⟩
    ∧ resolve envv1 jloads (Node.DictHandler d1 :: rest) key 0 fs
      = ⟨Except.ok (Value.str ""), fs, [Ev.visit 0]⟩
    ∧ resolve envv1 jloads (Node.DictHandler d2 :: rest) key 0 fs
      = ⟨(resolve envv1 jloads rest key 1 fs).result,
          (resolve envv1 jloads rest key 1 fs).fs,
          Ev.visit 0 :: (resolve envv1 jloads rest key 1 fs).log⟩ := by
  refine ⟨?_, ?_, ?_, ?_, ?_⟩
  · simp [resolve, h1]
  · simp [resolve, h2]
  · simp [resolve, h3]
  · simp [resolve, h4]
  · simp [resolve, h5]

/-- Claim C10, witness. -/
theorem c10_witness :
    resolve [("V", "")] jl0 (Node.EnvHandler :: [Node.DefaultHandler (Value.str "d")])
        "V" 0 []
      = ⟨Except.ok (Value.str ""), [], [Ev.visit 0]⟩
    ∧ resolve [] jl0 (Node.EnvHandler :: [Node.DefaultHandler (Value.str "d")]) "V" 0 []
      = ⟨(resolve [] jl0 [Node.DefaultHandler (Value.str "d")] "V" 1 []).result,
          (resolve [] jl0 [Node.DefaultHandler (Value.str "d")] "V" 1 []).fs,
          Ev.visit 0 :: (resolve [] jl0 [Node.DefaultHandler (Value.str "d")] "V" 1 []).log⟩
    ∧ resolve [("V", "")] jl0 (Node.DictHandler [("V", Value.int 0)]
        :: [Node.DefaultHandler (Value.str "d")]) "V" 0 []
      = ⟨Except.ok (Value.int 0), [], [Ev.visit 0]⟩
    ∧ resolve [("V", "")] jl0 (Node.DictHandler [("V", Value.str "")]
        :: [Node.DefaultHandler (Value.str "d")]) "V" 0 []
      = ⟨Except.ok (Value.str ""), [], [Ev.visit 0]⟩
    ∧ resolve [("V", "")] jl0 (Node.DictHandler []
        :: [Node.DefaultHandler (Value.str "d")]) "V" 0 []
      = ⟨(resolve [("V", "")] jl0 [Node.DefaultHandler (Value.str "d")] "V" 1 []).result,
          (resolve [("V", "")] jl0 [Node.DefaultHandler (Value.str "d")] "V" 1 []).fs,
          Ev.visit 0 :: (resolve [("V", "")] jl0 [Node.DefaultHandler (Value.str "d")]
            "V" 1 []).log⟩ :=
  c10_membership_not_truthiness [Node.DefaultHandler (Value.str "d")] "V" [("V", "")] []
    [("V", Value.int 0)] [("V", Value.str "")] [] jl0 [] rfl rfl rfl rfl rfl
